import Mathlib

set_option maxRecDepth 8000

/-!
Verification development for the backup reconciler in src/backup.py.

The module is shallowly embedded:
* `datetime.datetime` values are modelled at whole-second granularity (none of
  the configured formats carries a sub-second directive) by their wall-clock
  fields; after `path_to_datetime` every value in the program is re-labelled
  UTC, so equality of instants is equality of fields.
* `datetime.datetime.strptime` is modelled after CPython `_strptime` for the
  directive subset `%Y %m %d %H %M %S %z %%`, together with literal characters
  (matched case-insensitively, per the IGNORECASE compilation) and whitespace
  runs (which match one or more whitespace characters).  Any other directive is
  a bad directive: `_strptime` turns it into a `ValueError`.  Matching is
  anchored at the start and the whole string must be consumed.  After matching,
  construction of the `datetime` validates the date (day in range for the
  month, year at least `MINYEAR`, seconds at most 59, a UTC offset strictly
  below 24 hours) and raises `ValueError` otherwise.  Raising is modelled with
  `Except String`; a raised `ValueError` is exactly an `Except.error`.
* `pathlib.Path` values are modelled by their string; `Path.name` drops the
  directory components (empty and single-dot components are normalized away)
  and `Path.with_suffix('')` removes the final dot-extension of the name when
  one exists (a leading or trailing dot does not start an extension).
* The S3 client is modelled by the data it exchanges: the listing response
  (whose `Contents` entry is optional, as in `ListObjectsV2OutputTypeDef`), and
  an upload oracle `TimestampedLocalBackup -> Except String Unit` standing for
  `upload_file`, whose error is an uncaught exception.
-/

namespace BackuperToS3

/-- Wall-clock fields of a `datetime.datetime` at second granularity. -/
structure DateTime where
  year : Nat
  month : Nat
  day : Nat
  hour : Nat
  minute : Nat
  second : Nat
deriving DecidableEq, Repr

/-- Leap-year test, as in `calendar.isleap` / `datetime`. -/
def isLeap (y : Nat) : Bool :=
  (y % 4 = 0 && y % 100 ≠ 0) || y % 400 = 0

/-- Length of a month, as validated by the `datetime` constructor. -/
def daysInMonth (y m : Nat) : Nat :=
  if m = 2 then (if isLeap y then 29 else 28)
  else if m = 4 ∨ m = 6 ∨ m = 9 ∨ m = 11 then 30
  else 31

/-- Days before January 1st of year `y`, counted from year 1 (proleptic
Gregorian, as in `datetime.date.toordinal`). -/
def daysBeforeYear (y : Nat) : Nat :=
  let n := y - 1
  365 * n + n / 4 + n / 400 - n / 100

/-- Days in year `y` before the first of month `m`. -/
def daysBeforeMonth (y m : Nat) : Nat :=
  let base :=
    if m = 1 then 0 else if m = 2 then 31 else if m = 3 then 59
    else if m = 4 then 90 else if m = 5 then 120 else if m = 6 then 151
    else if m = 7 then 181 else if m = 8 then 212 else if m = 9 then 243
    else if m = 10 then 273 else if m = 11 then 304 else 334
  base + (if 2 < m && isLeap y then 1 else 0)

/-- Proleptic-Gregorian ordinal of a date (0001-01-01 has ordinal 1),
as in `datetime.date.toordinal`. -/
def toOrdinal (y m d : Nat) : Nat :=
  daysBeforeYear y + daysBeforeMonth y m + d

/-- Seconds since the Unix epoch of a wall-clock value read as UTC.  Aware
`datetime` subtraction (`total_seconds()`) is exactly the difference of these
numbers; 719163 is `date(1970, 1, 1).toordinal()`. -/
def epochSeconds (dt : DateTime) : Int :=
  ((toOrdinal dt.year dt.month dt.day : Int) - 719163) * 86400
    + dt.hour * 3600 + dt.minute * 60 + dt.second

/-- The whitespace characters of `re` pattern `\s` (ASCII scope). -/
def isWs (c : Char) : Bool :=
  c = ' ' || c = '\t' || c = '\n' || c = '\r' || c = '\x0b' || c = '\x0c'

/-- ASCII lower-casing, as performed by `re.IGNORECASE` literal matching and
by `str.lower` on the filename extensions this program compares. -/
def asciiLower (c : Char) : Char :=
  if 'A' ≤ c ∧ c ≤ 'Z' then Char.ofNat (c.toNat + 32) else c

/-- Numeric value of an ASCII digit. -/
def digitVal (c : Char) : Option Nat :=
  if '0' ≤ c ∧ c ≤ '9' then some (c.toNat - 48) else none

def isDigit (c : Char) : Bool :=
  (digitVal c).isSome

/-- One element of the compiled pattern `TimeRE.pattern` builds from a format
string: a case-insensitive literal, a whitespace run (`\s+`), or one of the
supported directives. -/
inductive Tok where
  | lit (c : Char)
  | ws
  | dirY
  | dirm
  | dird
  | dirH
  | dirM
  | dirS
  | dirz
deriving DecidableEq, Repr

/-- Directive table of `TimeRE` restricted to the modelled subset; `%%` is the
literal percent sign.  A directive outside the table is a bad directive. -/
def dirTok (c : Char) : Option Tok :=
  if c = 'Y' then some Tok.dirY
  else if c = 'm' then some Tok.dirm
  else if c = 'd' then some Tok.dird
  else if c = 'H' then some Tok.dirH
  else if c = 'M' then some Tok.dirM
  else if c = 'S' then some Tok.dirS
  else if c = 'z' then some Tok.dirz
  else if c = '%' then some (Tok.lit '%')
  else none

/-- Collapse an adjacent whitespace token: `TimeRE.pattern` replaces a whole
whitespace run of the format by a single `\s+`. -/
def consWs : List Tok → List Tok
  | Tok.ws :: ts => Tok.ws :: ts
  | ts => Tok.ws :: ts

/-- Compile a format string into pattern elements, as `TimeRE.pattern` does.
`Except.error` stands for the `ValueError` that `_strptime` raises for a bad
directive or a stray percent sign. -/
def tokenize : List Char → Except String (List Tok)
  | [] => Except.ok []
  | '%' :: rest =>
    match rest with
    | [] => Except.error ("stray % in format")
    | c :: rest2 =>
      match dirTok c with
      | some t => (tokenize rest2).map (fun ts => t :: ts)
      | none => Except.error ("bad directive in format")
  | c :: rest =>
    if isWs c then (tokenize rest).map consWs
    else (tokenize rest).map (fun ts => Tok.lit c :: ts)

/-- Fields collected while matching, before defaults are applied
(`_strptime`'s `found_dict`). -/
structure PState where
  py : Option Nat
  pmo : Option Nat
  pd : Option Nat
  ph : Option Nat
  pmi : Option Nat
  ps : Option Nat
  poff : Option Int
deriving DecidableEq, Repr

def PState.init : PState :=
  ⟨none, none, none, none, none, none, none⟩

/-- Pattern `%Y` is `\d\d\d\d`: exactly four digits. -/
def altsY (s : List Char) : List (Nat × List Char) :=
  match s with
  | c1 :: c2 :: c3 :: c4 :: r =>
    match digitVal c1, digitVal c2, digitVal c3, digitVal c4 with
    | some a, some b, some c, some d => [(a * 1000 + b * 100 + c * 10 + d, r)]
    | _, _, _, _ => []
  | _ => []

/-- Pattern `%m` is `1[0-2]|0[1-9]|[1-9]`, alternatives in regex order. -/
def altsm (s : List Char) : List (Nat × List Char) :=
  (match s with
   | '1' :: c :: r =>
     match digitVal c with
     | some v => if v ≤ 2 then [(10 + v, r)] else []
     | none => []
   | _ => []) ++
  (match s with
   | '0' :: c :: r =>
     match digitVal c with
     | some v => if 1 ≤ v then [(v, r)] else []
     | none => []
   | _ => []) ++
  (match s with
   | c :: r =>
     match digitVal c with
     | some v => if 1 ≤ v then [(v, r)] else []
     | none => []
   | _ => [])

/-- Pattern `%d` is `3[01]|[12]\d|0[1-9]|[1-9]`, alternatives in regex order. -/
def altsd (s : List Char) : List (Nat × List Char) :=
  (match s with
   | '3' :: c :: r => if c = '0' ∨ c = '1' then [(30 + c.toNat - 48, r)] else []
   | _ => []) ++
  (match s with
   | c0 :: c :: r =>
     match digitVal c0, digitVal c with
     | some v0, some v => if v0 = 1 ∨ v0 = 2 then [(v0 * 10 + v, r)] else []
     | _, _ => []
   | _ => []) ++
  (match s with
   | '0' :: c :: r =>
     match digitVal c with
     | some v => if 1 ≤ v then [(v, r)] else []
     | none => []
   | _ => []) ++
  (match s with
   | c :: r =>
     match digitVal c with
     | some v => if 1 ≤ v then [(v, r)] else []
     | none => []
   | _ => [])

/-- Pattern `%H` is `2[0-3]|[0-1]\d|\d`, alternatives in regex order. -/
def altsH (s : List Char) : List (Nat × List Char) :=
  (match s with
   | '2' :: c :: r =>
     match digitVal c with
     | some v => if v ≤ 3 then [(20 + v, r)] else []
     | none => []
   | _ => []) ++
  (match s with
   | c0 :: c :: r =>
     match digitVal c0, digitVal c with
     | some v0, some v => if v0 ≤ 1 then [(v0 * 10 + v, r)] else []
     | _, _ => []
   | _ => []) ++
  (match s with
   | c :: r =>
     match digitVal c with
     | some v => [(v, r)]
     | none => []
   | _ => [])

/-- Pattern `%M` is `[0-5]\d|\d`, alternatives in regex order. -/
def altsM5 (s : List Char) : List (Nat × List Char) :=
  (match s with
   | c0 :: c :: r =>
     match digitVal c0, digitVal c with
     | some v0, some v => if v0 ≤ 5 then [(v0 * 10 + v, r)] else []
     | _, _ => []
   | _ => []) ++
  (match s with
   | c :: r =>
     match digitVal c with
     | some v => [(v, r)]
     | none => []
   | _ => [])

/-- Pattern `%S` is `6[0-1]|[0-5]\d|\d`, alternatives in regex order (leap seconds
are admitted by the pattern; the `datetime` constructor rejects them later). -/
def altsS (s : List Char) : List (Nat × List Char) :=
  (match s with
   | '6' :: c :: r => if c = '0' ∨ c = '1' then [(60 + c.toNat - 48, r)] else []
   | _ => []) ++
  altsM5 s

/-- Rests after the optional fraction `(\.\d{1,6})?` of a `%z` offset, in
greedy regex order (longest first); the fraction's value is dropped at
second granularity. -/
def fracRests (s : List Char) : List (List Char) :=
  match s with
  | '.' :: r =>
    let n := min 6 (r.takeWhile isDigit).length
    (List.range n).map (fun i => r.drop (n - i))
  | _ => []

/-- Minutes part `:?[0-5]\d` of a `%z` offset: value and rest, in greedy
regex order (colon form first). -/
def zMinuteAlts (s : List Char) : List (Nat × List Char) :=
  (match s with
   | ':' :: c0 :: c :: r =>
     match digitVal c0, digitVal c with
     | some v0, some v => if v0 ≤ 5 then [(v0 * 10 + v, r)] else []
     | _, _ => []
   | _ => []) ++
  (match s with
   | c0 :: c :: r =>
     match digitVal c0, digitVal c with
     | some v0, some v => if v0 ≤ 5 then [(v0 * 10 + v, r)] else []
     | _, _ => []
   | _ => [])

/-- Pattern `%z` is `[+-]\d\d:?[0-5]\d(:?[0-5]\d(\.\d{1,6})?)?|(?-i:Z)`: alternatives
for (offset seconds, rest) in regex backtracking order.  The offset value is
computed as `_strptime` does: sign times `hh*3600 + mm*60 + ss`. -/
def altsz (s : List Char) : List (Int × List Char) :=
  (match s with
   | sg :: h1 :: h2 :: r1 =>
     if (sg = '+' ∨ sg = '-') ∧ isDigit h1 ∧ isDigit h2 then
       let hh := (h1.toNat - 48) * 10 + (h2.toNat - 48)
       let sign : Int := if sg = '-' then -1 else 1
       (zMinuteAlts r1).flatMap (fun mm =>
         ((zMinuteAlts mm.2).flatMap (fun ss =>
            (fracRests ss.2).map
              (fun r4 => (sign * (hh * 3600 + mm.1 * 60 + ss.1), r4)) ++
            [(sign * (hh * 3600 + mm.1 * 60 + ss.1), ss.2)])) ++
         [(sign * (hh * 3600 + mm.1 * 60), mm.2)])
     else []
   | _ => []) ++
  (match s with
   | 'Z' :: r => [((0 : Int), r)]
   | _ => [])

/-- All ways one pattern element can consume a prefix of the input, with the
updated field state, in regex backtracking order. -/
def applyTok : Tok → List Char → PState → List (List Char × PState)
  | Tok.lit c, s, st =>
    match s with
    | c2 :: r => if asciiLower c = asciiLower c2 then [(r, st)] else []
    | [] => []
  | Tok.ws, s, st =>
    let n := (s.takeWhile isWs).length
    (List.range n).map (fun i => (s.drop (n - i), st))
  | Tok.dirY, s, st => (altsY s).map (fun p => (p.2, { st with py := some p.1 }))
  | Tok.dirm, s, st => (altsm s).map (fun p => (p.2, { st with pmo := some p.1 }))
  | Tok.dird, s, st => (altsd s).map (fun p => (p.2, { st with pd := some p.1 }))
  | Tok.dirH, s, st => (altsH s).map (fun p => (p.2, { st with ph := some p.1 }))
  | Tok.dirM, s, st => (altsM5 s).map (fun p => (p.2, { st with pmi := some p.1 }))
  | Tok.dirS, s, st => (altsS s).map (fun p => (p.2, { st with ps := some p.1 }))
  | Tok.dirz, s, st => (altsz s).map (fun p => (p.2, { st with poff := some p.1 }))

/-- Backtracking matcher for the compiled pattern, anchored at the start; the
whole input must be consumed (`_strptime` rejects unconverted data).  The
fuel only bounds the recursion and is instantiated with more tokens than the
pattern has. -/
def matchToksF : Nat → List Tok → List Char → PState → Option PState
  | 0, _, _, _ => none
  | _ + 1, [], s, st => if s.isEmpty then some st else none
  | fuel + 1, t :: ts, s, st =>
    (applyTok t s st).findSome? (fun p => matchToksF fuel ts p.1 p.2)

/-- Result of a successful `strptime`: the wall-clock fields, and the UTC
offset in seconds when the format carried `%z` (an aware `datetime`). -/
structure ParseResult where
  dt : DateTime
  gmtoff : Option Int
deriving DecidableEq, Repr

/-- Apply `_strptime` defaults (year 1900, January 1st, midnight) and the
`datetime` constructor's validation.  `Except.error` is the `ValueError` the
constructor (or `timezone`) raises on an invalid date, leap second, or an
offset of a day or more. -/
def finalize (st : PState) : Except String ParseResult :=
  let y := st.py.getD 1900
  let mo := st.pmo.getD 1
  let d := st.pd.getD 1
  let h := st.ph.getD 0
  let mi := st.pmi.getD 0
  let s := st.ps.getD 0
  if y < 1 then Except.error ("year is out of range")
  else if daysInMonth y mo < d then Except.error ("day is out of range for month")
  else if 59 < s then Except.error ("second must be in 0..59")
  else
    match st.poff with
    | some z =>
      if z ≤ -86400 ∨ 86400 ≤ z then
        Except.error ("offset must be strictly between -24 and 24 hours")
      else Except.ok ⟨⟨y, mo, d, h, mi, s⟩, some z⟩
    | none => Except.ok ⟨⟨y, mo, d, h, mi, s⟩, none⟩

/-- Model of `datetime.datetime.strptime(data_string, format)` over the modelled
directive subset.  `Except.error` is a raised `ValueError`. -/
def strptime (data_string : String) (format : String) : Except String ParseResult :=
  match tokenize format.toList with
  | Except.error e => Except.error e
  | Except.ok toks =>
    match matchToksF (toks.length + 1) toks data_string.toList PState.init with
    | some st => finalize st
    | none => Except.error ("time data does not match format")

/-- Zero-padded decimal rendering. -/
def padTo (w n : Nat) : List Char :=
  let ds := Nat.toDigits 10 n
  List.replicate (w - ds.length) '0' ++ ds

/-- Model of `datetime.strftime` over the modelled directive subset, for the aware UTC
values this program formats (`%z` therefore renders as plus-zero).  Platform
`strftime` copies an unknown directive through unchanged. -/
def strftimeChars (dt : DateTime) : List Char → List Char
  | [] => []
  | '%' :: c :: r =>
    (if c = 'Y' then padTo 4 dt.year
     else if c = 'm' then padTo 2 dt.month
     else if c = 'd' then padTo 2 dt.day
     else if c = 'H' then padTo 2 dt.hour
     else if c = 'M' then padTo 2 dt.minute
     else if c = 'S' then padTo 2 dt.second
     else if c = 'z' then ['+', '0', '0', '0', '0']
     else if c = '%' then ['%']
     else ['%', c]) ++ strftimeChars dt r
  | c :: r => c :: strftimeChars dt r

def strftime (dt : DateTime) (format : String) : String :=
  String.mk (strftimeChars dt format.toList)

/-- Split a character list at every slash (components of a POSIX path before
normalization). -/
def splitSlash : List Char → List (List Char)
  | [] => [[]]
  | c :: rest =>
    match splitSlash rest with
    | [] => [[]]
    | g :: gs => if c = '/' then [] :: g :: gs else (c :: g) :: gs

/-- A component `pathlib` keeps: nonempty and not a single dot. -/
def goodComp (g : List Char) : Bool :=
  !(g.isEmpty) && g ≠ ['.']

/-- Model of `pathlib.Path(s).name`: the final kept component (empty when there is
none, e.g. for the root). -/
def pathNameChars (cs : List Char) : List Char :=
  (((splitSlash cs).filter goodComp).getLast?).getD []

/-- Remove the final dot-extension of a name, as `Path.with_suffix('')` does:
the extension starts at the last dot, provided that dot is neither the first
nor the last character. -/
def stripOneSuffix (cs : List Char) : List Char :=
  let r := cs.reverse
  let k := (r.takeWhile (fun c => c ≠ '.')).length
  if k < r.length ∧ 0 < k ∧ k + 1 < r.length then (r.drop (k + 1)).reverse else cs

/-- Model of `pathlib.Path(s).suffix` of the name `cs` (the part `with_suffix('')`
removes), or `[]` when there is none. -/
def suffixOf (cs : List Char) : List Char :=
  let r := cs.reverse
  let k := (r.takeWhile (fun c => c ≠ '.')).length
  if k < r.length ∧ 0 < k ∧ k + 1 < r.length then (r.take (k + 1)).reverse else []

/-- The test `p.suffix.lower() == '.zip'` for a path string. -/
def suffixLowerIsZip (path : String) : Bool :=
  (suffixOf (pathNameChars path.toList)).map asciiLower = ['.', 'z', 'i', 'p']

/-- The `Config` dataclass of src/backup.py. -/
structure Config where
  aws_access_key_id : String
  aws_secret_access_key : String
  region_name : String
  backup_dir_key_prefix : String
  bucket : String
  path_local_backups : String
  backup_ttl_seconds : Int
  remote_timestamp_format : String
  local_timestamp_format : String
deriving DecidableEq, Repr

/-- A JSON scalar from the configuration document.  The dataclass performs no
type validation, so only the key structure decides whether loading succeeds;
`other` stands for any further JSON value. -/
inductive JVal where
  | str (s : String)
  | int (n : Int)
  | other
deriving DecidableEq, Repr

def JVal.asStr : JVal → String
  | JVal.str s => s
  | _ => ""

def JVal.asInt : JVal → Int
  | JVal.int n => n
  | _ => 0

/-- The nine field names of `Config`, in declaration order. -/
def configFields : List String :=
  ["aws_access_key_id", "aws_secret_access_key", "region_name",
   "backup_dir_key_prefix", "bucket", "path_local_backups",
   "backup_ttl_seconds", "remote_timestamp_format", "local_timestamp_format"]

def lookupKey (doc : List (String × JVal)) (k : String) : Option JVal :=
  (doc.find? (fun p => p.1 = k)).map (fun p => p.2)

/-- Method `Config.from_config`, applied to the already-deserialized document:
`cls(**json.load(f))`.  Keyword binding raises `TypeError` when a declared
field is missing from the document or the document carries a key that is not
a declared field; there are no defaults.  Values are bound verbatim. -/
def Config.from_config (doc : List (String × JVal)) : Except String Config :=
  if configFields.all (fun k => (lookupKey doc k).isSome) then
    if (doc.map (fun p => p.1)).all (fun k => configFields.contains k) then
      Except.ok
        ⟨JVal.asStr ((lookupKey doc ("aws_access_key_id")).getD JVal.other),
         JVal.asStr ((lookupKey doc ("aws_secret_access_key")).getD JVal.other),
         JVal.asStr ((lookupKey doc ("region_name")).getD JVal.other),
         JVal.asStr ((lookupKey doc ("backup_dir_key_prefix")).getD JVal.other),
         JVal.asStr ((lookupKey doc ("bucket")).getD JVal.other),
         JVal.asStr ((lookupKey doc ("path_local_backups")).getD JVal.other),
         JVal.asInt ((lookupKey doc ("backup_ttl_seconds")).getD JVal.other),
         JVal.asStr ((lookupKey doc ("remote_timestamp_format")).getD JVal.other),
         JVal.asStr ((lookupKey doc ("local_timestamp_format")).getD JVal.other)⟩
    else Except.error ("TypeError: unexpected keyword argument")
  else Except.error ("TypeError: missing required positional argument")

/-- The `Literal['remote', 'local']` argument of `path_to_datetime`
(`localSrc` stands for the string literal `'local'`). -/
inductive TimestampSource where
  | remote
  | localSrc
deriving DecidableEq, Repr

/-- The format string `path_to_datetime` selects for a source. -/
def timestampFormatOf (cfg : Config) : TimestampSource → String
  | TimestampSource.remote => cfg.remote_timestamp_format
  | TimestampSource.localSrc => cfg.local_timestamp_format

/-- Function `path_to_datetime(cfg, timestamp_source, path)`: take the path's name
without its final extension (`path.with_suffix('').name`), parse it with the
selected format, and re-label the wall-clock result as UTC
(`.replace(tzinfo=datetime.UTC)` keeps the fields and discards any parsed
offset); a raised `ValueError` is caught and turned into `None`. -/
def path_to_datetime (cfg : Config) (timestamp_source : TimestampSource)
    (path : String) : Option DateTime :=
  let raw_datetime := String.mk (stripOneSuffix (pathNameChars path.toList))
  match strptime raw_datetime (timestampFormatOf cfg timestamp_source) with
  | Except.ok r => some r.dt
  | Except.error _ => none

/-- The `TimestampedLocalBackup` dataclass. -/
structure TimestampedLocalBackup where
  timestamp : DateTime
  path : String
deriving DecidableEq, Repr

/-- Method `TimestampedLocalBackup.maybe_parse`. -/
def TimestampedLocalBackup.maybe_parse (cfg : Config) (path : String) :
    Option TimestampedLocalBackup :=
  match path_to_datetime cfg TimestampSource.localSrc path with
  | some timestamp => some ⟨timestamp, path⟩
  | none => none

/-- Method `TimestampedLocalBackup.to_remote_key`. -/
def TimestampedLocalBackup.to_remote_key (self : TimestampedLocalBackup)
    (cfg : Config) : String :=
  let formatted_timestamp := strftime self.timestamp cfg.remote_timestamp_format
  cfg.backup_dir_key_prefix ++ formatted_timestamp ++ (".zip")

/-- One object of a `list_objects_v2` response. -/
structure S3Object where
  key : String
deriving DecidableEq, Repr

/-- A `list_objects_v2` response: `Contents` is `NotRequired` and is absent
when no object matches the prefix. -/
structure ListObjectsV2Output where
  contents : Option (List S3Object)
deriving DecidableEq, Repr

/-- The set of timestamps parsed from a list of object keys: keys whose
stripped name fails to parse are dropped, and `set(...)` collapses
duplicates. -/
def backups_in_s3_set (objs : List S3Object) (cfg : Config) : Finset DateTime :=
  ((objs.map S3Object.key).filterMap
    (path_to_datetime cfg TimestampSource.remote)).toFinset

/-- Function `backups_in_s3(client, cfg)` with the client replaced by the listing
response it returns.  `response["Contents"]` raises `KeyError` (uncaught)
when the response has no `Contents` entry. -/
def backups_in_s3 (response : ListObjectsV2Output) (cfg : Config) :
    Except String (Finset DateTime) :=
  match response.contents with
  | none => Except.error ("KeyError: Contents")
  | some objs => Except.ok (backups_in_s3_set objs cfg)

/-- One entry yielded by `Path.iterdir()`. -/
structure DirEntry where
  path : String
  is_file : Bool
deriving DecidableEq, Repr

/-- Function `backups_local(cfg)` with the directory contents passed explicitly: keep
regular files with (case-insensitive) extension `.zip`, then keep those whose
name parses (`maybe_parse`), in directory-enumeration order. -/
def backups_local (cfg : Config) (entries : List DirEntry) :
    List TimestampedLocalBackup :=
  let local_paths :=
    (entries.filter (fun p => p.is_file && suffixLowerIsZip p.path)).map DirEntry.path
  local_paths.filterMap (TimestampedLocalBackup.maybe_parse cfg)

/-- Function `expired(cfg, current_timestamp, local_backup)`:
`(current_timestamp - local_backup.timestamp).total_seconds() > cfg.backup_ttl_seconds`. -/
def expired (cfg : Config) (current_timestamp : DateTime)
    (local_backup : TimestampedLocalBackup) : Bool :=
  decide (cfg.backup_ttl_seconds
    < epochSeconds current_timestamp - epochSeconds local_backup.timestamp)

/-- The `must_upload_backups` filter of `main`: keep local backups whose
timestamp is not already remote and which are not expired. -/
def must_upload_backups (cfg : Config) (timestamp_now : DateTime)
    (remote_backups : Finset DateTime)
    (local_backups : List TimestampedLocalBackup) :
    List TimestampedLocalBackup :=
  local_backups.filter
    (fun l => !(decide (l.timestamp ∈ remote_backups))
      && !(expired cfg timestamp_now l))

/-- The upload loop of `main`: call `upload_backup` on each surviving backup
in order; an upload failure propagates immediately, so the result is the list
of backups uploaded before the failure together with the error, and the
remaining queue is never reached. -/
def run_uploads (upload : TimestampedLocalBackup → Except String Unit) :
    List TimestampedLocalBackup →
      List TimestampedLocalBackup × Option String
  | [] => ([], none)
  | b :: rest =>
    match upload b with
    | Except.error e => ([], some e)
    | Except.ok _ =>
      let r := run_uploads upload rest
      (b :: r.1, r.2)

/-- Function `main()` after configuration loading, with its collaborators passed as
data: the listing response, the directory contents, the current UTC instant,
and the upload oracle.  Returns the uploaded backups, or the first uncaught
error. -/
def main (cfg : Config) (timestamp_now : DateTime)
    (response : ListObjectsV2Output) (entries : List DirEntry)
    (upload : TimestampedLocalBackup → Except String Unit) :
    Except String (List TimestampedLocalBackup) :=
  match backups_in_s3 response cfg with
  | Except.error e => Except.error e
  | Except.ok remote_backups =>
    let local_backups := backups_local cfg entries
    let to_upload := must_upload_backups cfg timestamp_now remote_backups local_backups
    match run_uploads upload to_upload with
    | (done, none) => Except.ok done
    | (_, some e) => Except.error e

/-- Instant (seconds since epoch) denoted by an aware parse result: the
wall-clock reading minus its UTC offset. -/
def parsedInstant (r : ParseResult) : Int :=
  epochSeconds r.dt - (r.gmtoff.getD 0)

/-! Concrete sample values used by counterexamples and witnesses. -/

def dtJan1 : DateTime := ⟨2021, 1, 1, 0, 0, 0⟩

def dtJan2 : DateTime := ⟨2021, 1, 2, 0, 0, 0⟩

def dtMar4 : DateTime := ⟨2021, 3, 4, 0, 0, 0⟩

def dtMar5 : DateTime := ⟨2021, 3, 5, 0, 0, 0⟩

/-- A configuration whose key prefix does not end in a slash. -/
def cfgBk : Config :=
  ⟨"k", "s", "eu-west-1", "bk-", "bucket", "backups", 200000, "%Y%m%d", "%Y%m%d"⟩

/-- A configuration whose key prefix is a directory-like, slash-terminated
string. -/
def cfgSlash : Config :=
  ⟨"k", "s", "eu-west-1", "backups/", "bucket", "backups", 200000,
   "%Y-%m-%d", "%Y-%m-%d"⟩

/-- A configuration whose retention window is exactly one day. -/
def cfg86400 : Config :=
  ⟨"k", "s", "eu-west-1", "backups/", "bucket", "backups", 86400,
   "%Y%m%d", "%Y%m%d"⟩

def c10Fmt : String := "%Y-%m-%d %H:%M:%S%z"

/-- A configuration whose formats carry the UTC-offset directive. -/
def cfgZ : Config :=
  ⟨"k", "s", "eu-west-1", "", "bucket", "backups", 200000, c10Fmt, c10Fmt⟩

def c10R1 : ParseResult := ⟨⟨2021, 5, 1, 12, 0, 0⟩, some 3600⟩

def c10R2 : ParseResult := ⟨⟨2021, 5, 1, 11, 0, 0⟩, some 0⟩

def bJan1 : TimestampedLocalBackup := ⟨dtJan1, "20210101.zip"⟩

def bMar4 : TimestampedLocalBackup := ⟨dtMar4, "2021-03-04.zip"⟩

def bA : TimestampedLocalBackup := ⟨dtJan1, "a.zip"⟩

def bB : TimestampedLocalBackup := ⟨dtJan1, "b.zip"⟩

def bC : TimestampedLocalBackup := ⟨dtJan1, "c.zip"⟩

/-- An upload oracle that succeeds on `a.zip` and fails on anything else. -/
def c8Upload : TimestampedLocalBackup → Except String Unit :=
  fun b => if b.path = ("a.zip") then Except.ok () else Except.error ("boom")

def c3Entries : List DirEntry := [⟨"2021-01-01.zip", true⟩]

def c6Entries : List DirEntry := [⟨"notes.txt", true⟩, ⟨"2021-03-04.zip", true⟩]

/-- A well-formed configuration document carrying exactly the nine fields. -/
def goodDoc : List (String × JVal) :=
  [("aws_access_key_id", JVal.str ("k")),
   ("aws_secret_access_key", JVal.str ("s")),
   ("region_name", JVal.str ("eu-west-1")),
   ("backup_dir_key_prefix", JVal.str ("backups/")),
   ("bucket", JVal.str ("bucket")),
   ("path_local_backups", JVal.str ("backups")),
   ("backup_ttl_seconds", JVal.int 86400),
   ("remote_timestamp_format", JVal.str ("%Y%m%d")),
   ("local_timestamp_format", JVal.str ("%Y%m%d"))]

/-- The `Config` that `from_config` builds out of `goodDoc`. -/
def cfgGood : Config :=
  ⟨"k", "s", "eu-west-1", "backups/", "bucket", "backups", 86400,
   "%Y%m%d", "%Y%m%d"⟩

/-! Helper lemmas about strings, path splitting, and the listing/scanning
pipelines, shared by the claim theorems below. -/

theorem string_toList_append (a b : String) :
    (a ++ b).toList = a.toList ++ b.toList :=
  String.data_append a b

theorem string_mk_toList (s : String) : String.mk s.toList = s := by
  cases s
  rfl

theorem splitSlash_ne_nil (cs : List Char) : splitSlash cs ≠ [] := by
  induction cs with
  | nil => simp [splitSlash]
  | cons c rest ih =>
    simp only [splitSlash]
    cases hsp : splitSlash rest with
    | nil => simp
    | cons g gs =>
      by_cases hc : c = '/' <;> simp [hc]

theorem splitSlash_append_slash (xs ys : List Char) :
    splitSlash (xs ++ '/' :: ys) = splitSlash xs ++ splitSlash ys := by
  induction xs with
  | nil =>
    cases hsp : splitSlash ys with
    | nil => exact absurd hsp (splitSlash_ne_nil ys)
    | cons g gs => simp [splitSlash, hsp]
  | cons c xs ih =>
    simp only [List.cons_append, splitSlash, ih]
    cases h1 : splitSlash xs with
    | nil => exact absurd h1 (splitSlash_ne_nil xs)
    | cons g gs =>
      by_cases hc : c = '/' <;> simp [hc, ih, h1]

theorem splitSlash_no_slash (cs : List Char) (h : '/' ∉ cs) :
    splitSlash cs = [cs] := by
  induction cs with
  | nil => rfl
  | cons c rest ih =>
    have hc : ¬(c = '/') := by
      intro hceq
      exact h (by rw [hceq]; exact List.mem_cons_self _ _)
    have hr : '/' ∉ rest := fun hmem => h (List.mem_cons_of_mem _ hmem)
    simp [splitSlash, ih hr, hc]

theorem pathName_append (pre n : List Char)
    (hpre : pre = [] ∨ pre.getLast? = some '/')
    (hn : '/' ∉ n) (hg : goodComp n = true) :
    pathNameChars (pre ++ n) = n := by
  rcases hpre with h | h
  · subst h
    simp [pathNameChars, splitSlash_no_slash n hn, hg]
  · rcases List.getLast?_eq_some_iff.mp h with ⟨xs, rfl⟩
    have hshape : (xs ++ ['/']) ++ n = xs ++ '/' :: n := by simp
    rw [hshape, pathNameChars, splitSlash_append_slash,
      splitSlash_no_slash n hn, List.filter_append]
    simp [hg, List.getLast?_concat]

theorem stripOneSuffix_zip (s : List Char) (hs : s ≠ []) :
    stripOneSuffix (s ++ ['.', 'z', 'i', 'p']) = s := by
  have hrev : (s ++ ['.', 'z', 'i', 'p']).reverse = 'p' :: 'i' :: 'z' :: '.' :: s.reverse := by
    simp [List.reverse_append]
  have hlen : 0 < s.reverse.length := by
    simpa [List.length_reverse, List.length_pos] using hs
  have htake : (('p' :: 'i' :: 'z' :: '.' :: s.reverse).takeWhile
      (fun c => c ≠ '.')).length = 3 := by
    simp [List.takeWhile_cons]
  have hcond : 3 < ('p' :: 'i' :: 'z' :: '.' :: s.reverse).length ∧ 0 < 3 ∧
      3 + 1 < ('p' :: 'i' :: 'z' :: '.' :: s.reverse).length := by
    simp only [List.length_cons]
    omega
  have hdrop : List.drop (3 + 1) ('p' :: 'i' :: 'z' :: '.' :: s.reverse) =
      s.reverse := rfl
  simp only [stripOneSuffix, hrev, htake]
  rw [if_pos hcond, hdrop, List.reverse_reverse]

theorem goodComp_zip (s : List Char) :
    goodComp (s ++ ['.', 'z', 'i', 'p']) = true := by
  have h1 : s ++ ['.', 'z', 'i', 'p'] ≠ [] := by simp
  have h2 : ¬(s ++ ['.', 'z', 'i', 'p'] = ['.']) := by
    intro h
    have hlen := congrArg List.length h
    simp only [List.length_append, List.length_cons, List.length_nil] at hlen
    omega
  simp [goodComp, h1, h2, List.isEmpty_iff]

theorem slash_not_mem_zip (s : List Char) (h : '/' ∉ s) :
    '/' ∉ s ++ ['.', 'z', 'i', 'p'] := by
  intro hm
  rcases List.mem_append.mp hm with h1 | h1
  · exact h h1
  · simp at h1

theorem mem_backups_in_s3_set (cfg : Config) (objs : List S3Object) (t : DateTime) :
    t ∈ backups_in_s3_set objs cfg ↔
      ∃ o, o ∈ objs ∧
        path_to_datetime cfg TimestampSource.remote o.key = some t := by
  simp [backups_in_s3_set, List.mem_filterMap, List.mem_map]

theorem mem_backups_local (cfg : Config) (entries : List DirEntry)
    (b : TimestampedLocalBackup) :
    b ∈ backups_local cfg entries ↔
      ∃ p, p ∈ entries ∧ p.is_file = true ∧ suffixLowerIsZip p.path = true ∧
        TimestampedLocalBackup.maybe_parse cfg p.path = some b := by
  simp only [backups_local, List.mem_filterMap, List.mem_map, List.mem_filter,
    Bool.and_eq_true]
  constructor
  · rintro ⟨a, ⟨p, ⟨hp, hf, hz⟩, rfl⟩, hm⟩
    exact ⟨p, hp, hf, hz, hm⟩
  · rintro ⟨p, hp, hf, hz, hm⟩
    exact ⟨p.path, ⟨p, ⟨hp, hf, hz⟩, rfl⟩, hm⟩

theorem maybe_parse_eq_some (cfg : Config) (path : String)
    (b : TimestampedLocalBackup)
    (h : TimestampedLocalBackup.maybe_parse cfg path = some b) :
    b.path = path ∧
      path_to_datetime cfg TimestampSource.localSrc path = some b.timestamp := by
  unfold TimestampedLocalBackup.maybe_parse at h
  cases hpt : path_to_datetime cfg TimestampSource.localSrc path with
  | none => rw [hpt] at h; cases h
  | some ts =>
    rw [hpt] at h
    cases h
    exact ⟨rfl, by simp [hpt]⟩

/-! The claim theorems. -/

/-- C1: a local backup in the scanned list is selected for upload iff its
parsed timestamp is not in the remote timestamp set and it is not expired;
in particular an expired backup is skipped even when its timestamp is missing
remotely, and a remotely-present timestamp is never selected regardless of
expiry. -/
theorem c1_selection (cfg : Config) (now : DateTime) (remote : Finset DateTime)
    (locals : List TimestampedLocalBackup) (b : TimestampedLocalBackup) :
    (b ∈ must_upload_backups cfg now remote locals ↔
      b ∈ locals ∧ b.timestamp ∉ remote ∧ expired cfg now b = false) ∧
    (expired cfg now b = true →
      b ∉ must_upload_backups cfg now remote locals) ∧
    (b.timestamp ∈ remote →
      b ∉ must_upload_backups cfg now remote locals) := by
  have h : b ∈ must_upload_backups cfg now remote locals ↔
      b ∈ locals ∧ b.timestamp ∉ remote ∧ expired cfg now b = false := by
    simp [must_upload_backups, List.mem_filter, Bool.and_eq_true,
      Bool.not_eq_true', decide_eq_true_eq, and_assoc]
  refine ⟨h, ?_, ?_⟩
  · intro hexp hb
    rcases h.mp hb with ⟨_, _, hfalse⟩
    rw [hexp] at hfalse
    simp at hfalse
  · intro hr hb
    rcases h.mp hb with ⟨_, hnr, _⟩
    exact hnr hr

theorem c1_selection_witness :
    bJan1 ∈ must_upload_backups cfgBk dtJan2 ∅ [bJan1] :=
  (c1_selection cfgBk dtJan2 ∅ [bJan1] bJan1).1.mpr
    ⟨by decide, by decide, by decide⟩

/-- C2: the expiry predicate holds iff the elapsed seconds from the backup's
timestamp to the current instant strictly exceed the configured retention
seconds; at exactly the threshold the backup is not expired and, when its
timestamp is absent remotely, it is selected for upload. -/
theorem c2_expiry (cfg : Config) (now : DateTime) (b : TimestampedLocalBackup) :
    (expired cfg now b = true ↔
      cfg.backup_ttl_seconds < epochSeconds now - epochSeconds b.timestamp) ∧
    (epochSeconds now - epochSeconds b.timestamp = cfg.backup_ttl_seconds →
      expired cfg now b = false ∧
      ∀ (remote : Finset DateTime) (locals : List TimestampedLocalBackup),
        b ∈ locals → b.timestamp ∉ remote →
        b ∈ must_upload_backups cfg now remote locals) := by
  have hiff : expired cfg now b = true ↔
      cfg.backup_ttl_seconds < epochSeconds now - epochSeconds b.timestamp := by
    simp [expired]
  refine ⟨hiff, fun heq => ?_⟩
  have hexp : expired cfg now b = false := by
    cases h : expired cfg now b
    · rfl
    · exact absurd (hiff.mp h) (by omega)
  refine ⟨hexp, fun remote locals hl hr => ?_⟩
  exact List.mem_filter.mpr ⟨hl, by simp [hr, hexp]⟩

theorem c2_expiry_witness :
    expired cfg86400 dtJan2 bJan1 = false ∧
    bJan1 ∈ must_upload_backups cfg86400 dtJan2 ∅ [bJan1] := by
  have h := (c2_expiry cfg86400 dtJan2 bJan1).2 (by decide)
  exact ⟨h.1, h.2 ∅ [bJan1] (by decide) (by decide)⟩

/-- C3: contrary to the claim, a listing response with no `Contents` entry
(what S3 returns when no object matches the prefix) makes `backups_in_s3`
raise `KeyError` instead of returning the empty set, so the run aborts and
the non-expired local backup that should have been uploaded is not. -/
theorem c3_empty_listing_raises :
    backups_in_s3 ⟨none⟩ cfgSlash = Except.error ("KeyError: Contents") ∧
    main cfgSlash dtJan2 ⟨none⟩ c3Entries (fun _ => Except.ok ()) =
      Except.error ("KeyError: Contents") ∧
    must_upload_backups cfgSlash dtJan2 ∅ (backups_local cfgSlash c3Entries) ≠
      [] :=
  ⟨rfl, rfl, by decide⟩

/-- C4: the shared parsing routine maps any raised `ValueError` to "no
value" instead of propagating it, every record produced by the local scan
comes from a successfully parsed stem, and every member of the remote
timestamp set comes from a key whose stripped stem parsed successfully — so
items that fail to parse are excluded from both results. -/
theorem c4_parse_failures_filtered :
    (∀ (cfg : Config) (src : TimestampSource) (path : String) (e : String),
        strptime (String.mk (stripOneSuffix (pathNameChars path.toList)))
          (timestampFormatOf cfg src) = Except.error e →
        path_to_datetime cfg src path = none) ∧
    (∀ (cfg : Config) (entries : List DirEntry) (b : TimestampedLocalBackup),
        b ∈ backups_local cfg entries →
        path_to_datetime cfg TimestampSource.localSrc b.path =
          some b.timestamp) ∧
    (∀ (cfg : Config) (objs : List S3Object) (t : DateTime),
        t ∈ backups_in_s3_set objs cfg →
        ∃ o, o ∈ objs ∧
          path_to_datetime cfg TimestampSource.remote o.key = some t) := by
  refine ⟨?_, ?_, ?_⟩
  · intro cfg src path e he
    simp only [path_to_datetime]
    rw [he]
  · intro cfg entries b hb
    rcases (mem_backups_local cfg entries b).mp hb with ⟨p, _, _, _, hm⟩
    rcases maybe_parse_eq_some cfg p.path b hm with ⟨hpath, hts⟩
    rw [hpath]
    exact hts
  · intro cfg objs t ht
    exact (mem_backups_in_s3_set cfg objs t).mp ht

theorem c4_witness :
    path_to_datetime cfgSlash TimestampSource.localSrc ("garbage.zip") = none :=
  c4_parse_failures_filtered.1 cfgSlash TimestampSource.localSrc ("garbage.zip")
    ("time data does not match format") rfl

/-- C5 counterexample: with the prefix `bk-` (not slash-terminated), the key
`bk-20210101.zip` is exactly the prefix followed by a correctly formatted
timestamp plus the extension, yet its timestamp is not contributed to the
remote set: the code only drops the basename's final extension, it never
strips the configured prefix. -/
theorem c5_counterexample :
    dtJan1 ∉ backups_in_s3_set [⟨"bk-20210101.zip"⟩] cfgBk ∧
    ("bk-20210101.zip" : String) =
      cfgBk.backup_dir_key_prefix ++ ("20210101") ++ (".zip") ∧
    strptime ("20210101") cfgBk.remote_timestamp_format =
      Except.ok ⟨dtJan1, none⟩ :=
  ⟨by decide, rfl, rfl⟩

/-- C5 (amended): the lister takes each key's final path component, drops its
final extension, and parses the remainder; a key equal to the configured
prefix followed by a nonempty, slash-free formatted timestamp plus the
extension therefore contributes the parsed timestamp whenever the prefix is
empty or slash-terminated (for other prefixes the prefix text is left in the
stem and such keys are dropped, as the counterexample shows). -/
theorem c5_amended (cfg : Config) (objs : List S3Object) (o : S3Object)
    (s : String) (r : ParseResult)
    (hpre : cfg.backup_dir_key_prefix.toList = [] ∨
      cfg.backup_dir_key_prefix.toList.getLast? = some '/')
    (ho : o ∈ objs)
    (hkey : o.key = cfg.backup_dir_key_prefix ++ s ++ (".zip"))
    (hs : s.toList ≠ [])
    (hslash : '/' ∉ s.toList)
    (hparse : strptime s cfg.remote_timestamp_format = Except.ok r) :
    r.dt ∈ backups_in_s3_set objs cfg := by
  refine (mem_backups_in_s3_set cfg objs r.dt).mpr ⟨o, ho, ?_⟩
  have hzip : (".zip" : String).toList = ['.', 'z', 'i', 'p'] := rfl
  have hlist : o.key.toList =
      cfg.backup_dir_key_prefix.toList ++ (s.toList ++ ['.', 'z', 'i', 'p']) := by
    rw [hkey, string_toList_append, string_toList_append, hzip,
      List.append_assoc]
  have hstem : stripOneSuffix (pathNameChars o.key.toList) = s.toList := by
    rw [hlist,
      pathName_append _ _ hpre (slash_not_mem_zip _ hslash) (goodComp_zip _),
      stripOneSuffix_zip _ hs]
  simp only [path_to_datetime, hstem, string_mk_toList, timestampFormatOf,
    hparse]

theorem c5_amended_witness :
    dtMar4 ∈ backups_in_s3_set [⟨"backups/2021-03-04.zip"⟩] cfgSlash :=
  c5_amended cfgSlash [⟨"backups/2021-03-04.zip"⟩] ⟨"backups/2021-03-04.zip"⟩
    ("2021-03-04") ⟨dtMar4, none⟩ (Or.inr (by decide)) (by decide) rfl
    (by decide) (by decide) rfl

/-- C6: the local scan keeps exactly the directory entries that are regular
files with case-insensitive extension `.zip` and whose stem parses; an entry
with any other extension contributes nothing, even when its stem would parse
under the configured format. -/
theorem c6_zip_only (cfg : Config) (entries : List DirEntry) :
    (∀ b, b ∈ backups_local cfg entries ↔
      ∃ p, p ∈ entries ∧ p.is_file = true ∧ suffixLowerIsZip p.path = true ∧
        TimestampedLocalBackup.maybe_parse cfg p.path = some b) ∧
    (∀ (p : DirEntry) (b : TimestampedLocalBackup),
      (entries.map DirEntry.path).Nodup → p ∈ entries →
      ¬(p.is_file = true ∧ suffixLowerIsZip p.path = true) →
      b ∈ backups_local cfg entries → b.path ≠ p.path) := by
  refine ⟨fun b => mem_backups_local cfg entries b, ?_⟩
  intro p b hnd hp hbad hb heq
  rcases (mem_backups_local cfg entries b).mp hb with ⟨q, hq, hqf, hqz, hm⟩
  rcases maybe_parse_eq_some cfg q.path b hm with ⟨hpath, _⟩
  have hqp : q = p := List.inj_on_of_nodup_map hnd hq hp (by rw [← hpath, heq])
  rw [hqp] at hqf hqz
  exact hbad ⟨hqf, hqz⟩

theorem c6_zip_only_witness :
    bMar4 ∈ backups_local cfgSlash c6Entries :=
  ((c6_zip_only cfgSlash c6Entries).1 bMar4).mpr
    ⟨⟨"2021-03-04.zip", true⟩, by decide, rfl, by decide, rfl⟩

/-- C7 counterexample: with prefix `bk-`, the key uploaded in the first run
does not parse back (the prefix is not stripped from the stem), so extending
the remote set with the timestamps parsed from the uploaded keys leaves it
unchanged and the second run uploads again — the claim fails for this
configuration even with no new local files and no new expirations. -/
theorem c7_counterexample :
    must_upload_backups cfgBk dtJan2
      ((∅ : Finset DateTime) ∪
        ((must_upload_backups cfgBk dtJan2 ∅ [bJan1]).filterMap
          (fun b => path_to_datetime cfgBk TimestampSource.remote
            (TimestampedLocalBackup.to_remote_key b cfgBk))).toFinset)
      [bJan1] ≠ [] := by decide

/-- C7 (amended): re-running the reconciliation with the remote set extended
by the timestamps parsed from the keys uploaded in the first run yields zero
uploads, provided each uploaded key parses back to its backup's timestamp
(e.g. a slash-terminated or empty prefix with a round-tripping format); with
no new local files and the same current instant. -/
theorem c7_amended (cfg : Config) (now : DateTime) (remote : Finset DateTime)
    (locals : List TimestampedLocalBackup)
    (hround : ∀ b, b ∈ must_upload_backups cfg now remote locals →
      path_to_datetime cfg TimestampSource.remote
        (TimestampedLocalBackup.to_remote_key b cfg) = some b.timestamp) :
    must_upload_backups cfg now
      (remote ∪ ((must_upload_backups cfg now remote locals).filterMap
        (fun b => path_to_datetime cfg TimestampSource.remote
          (TimestampedLocalBackup.to_remote_key b cfg))).toFinset)
      locals = [] := by
  rw [must_upload_backups, List.filter_eq_nil_iff]
  intro b hb hsel
  rcases Bool.and_eq_true .. |>.mp hsel with ⟨hnotin, hnexp⟩
  rw [Bool.not_eq_true', decide_eq_false_iff_not] at hnotin
  have hnr : b.timestamp ∉ remote := fun h => hnotin (Finset.mem_union_left _ h)
  have hb1 : b ∈ must_upload_backups cfg now remote locals :=
    List.mem_filter.mpr ⟨hb, by simp [hnr, Bool.not_eq_true'] at hnexp ⊢; simp [hnexp]⟩
  have hkey := hround b hb1
  have hmem : b.timestamp ∈
      ((must_upload_backups cfg now remote locals).filterMap
        (fun b => path_to_datetime cfg TimestampSource.remote
          (TimestampedLocalBackup.to_remote_key b cfg))).toFinset :=
    List.mem_toFinset.mpr (List.mem_filterMap.mpr ⟨b, hb1, hkey⟩)
  exact hnotin (Finset.mem_union_right _ hmem)

theorem c7_amended_witness :
    must_upload_backups cfgSlash dtMar5
      ((∅ : Finset DateTime) ∪
        ((must_upload_backups cfgSlash dtMar5 ∅ [bMar4]).filterMap
          (fun b => path_to_datetime cfgSlash TimestampSource.remote
            (TimestampedLocalBackup.to_remote_key b cfgSlash))).toFinset)
      [bMar4] = [] :=
  c7_amended cfgSlash dtMar5 ∅ [bMar4] (by decide)

/-- C8: uploads run one at a time over the surviving list in order (the
surviving list is a sublist of the scan order); when the upload call fails at
position `i`, exactly the backups before `i` have been uploaded, the error
propagates, and no later backup is attempted; when every call succeeds, the
whole list is uploaded in order. -/
theorem c8_upload_halt :
    (∀ (upload : TimestampedLocalBackup → Except String Unit)
        (l : List TimestampedLocalBackup) (i : Nat) (e : String)
        (hi : i < l.length),
        (∀ j (hj : j < i), upload (l.get ⟨j, Nat.lt_trans hj hi⟩) =
          Except.ok ()) →
        upload (l.get ⟨i, hi⟩) = Except.error e →
        run_uploads upload l = (l.take i, some e)) ∧
    (∀ (upload : TimestampedLocalBackup → Except String Unit)
        (l : List TimestampedLocalBackup),
        (∀ b, b ∈ l → upload b = Except.ok ()) →
        run_uploads upload l = (l, none)) ∧
    (∀ (cfg : Config) (now : DateTime) (remote : Finset DateTime)
        (locals : List TimestampedLocalBackup),
        List.Sublist (must_upload_backups cfg now remote locals) locals) := by
  refine ⟨?_, ?_, ?_⟩
  · intro upload l
    induction l with
    | nil => intro i e hi; exact absurd hi (Nat.not_lt_zero i)
    | cons b rest ih =>
      intro i e hi hok herr
      cases i with
      | zero =>
        simp only [run_uploads]
        rw [show upload b = Except.error e from herr]
        rfl
      | succ i =>
        have hb : upload b = Except.ok () := hok 0 (Nat.succ_pos i)
        have hi2 : i < rest.length := Nat.lt_of_succ_lt_succ hi
        have hrest := ih i e hi2
          (fun j hj => hok (j + 1) (Nat.succ_lt_succ hj)) herr
        simp only [run_uploads]
        rw [show upload b = Except.ok () from hb, hrest]
        rfl
  · intro upload l hok
    induction l with
    | nil => rfl
    | cons b rest ih =>
      have hb : upload b = Except.ok () := hok b (List.mem_cons_self b rest)
      have hrest := ih (fun x hx => hok x (List.mem_cons_of_mem b hx))
      simp only [run_uploads]
      rw [show upload b = Except.ok () from hb, hrest]
  · intro cfg now remote locals
    exact List.filter_sublist locals

theorem c8_upload_halt_witness :
    run_uploads c8Upload [bA, bB, bC] = ([bA], some ("boom")) := by
  have h3 : 1 < List.length [bA, bB, bC] := by decide
  refine c8_upload_halt.1 c8Upload [bA, bB, bC] 1 ("boom") h3 ?_ ?_
  · intro j hj
    have hj0 : j = 0 := Nat.lt_one_iff.mp hj
    subst hj0
    rfl
  · rfl

/-- C9: configuration loading succeeds exactly when the document's key set is
the nine declared field names — a missing required field fails, and so does
any unknown extra field, since every document key is passed verbatim to the
`Config` constructor, which accepts no others and has no defaults. -/
theorem c9_config_keys_exact (doc : List (String × JVal)) :
    (∃ c, Config.from_config doc = Except.ok c) ↔
      ((∀ k, k ∈ configFields → k ∈ doc.map Prod.fst) ∧
        (∀ k, k ∈ doc.map Prod.fst → k ∈ configFields)) := by
  have hkey : ∀ k, ((lookupKey doc k).isSome = true) ↔ k ∈ doc.map Prod.fst := by
    intro k
    unfold lookupKey
    constructor
    · intro h
      cases hf : doc.find? (fun p => p.1 = k) with
      | none => rw [hf] at h; simp at h
      | some x =>
        have hx : x.1 = k := by simpa using List.find?_some hf
        exact List.mem_map.mpr ⟨x, List.mem_of_find?_eq_some hf, hx⟩
    · intro h
      rcases List.mem_map.mp h with ⟨x, hx, rfl⟩
      cases hf : doc.find? (fun p => p.1 = x.1) with
      | some y => rfl
      | none =>
        have := List.find?_eq_none.mp hf x hx
        simp at this
  have hcont : ∀ k, (configFields.contains k = true) ↔ k ∈ configFields := by
    intro k
    exact List.elem_iff
  constructor
  · rintro ⟨c, hc⟩
    unfold Config.from_config at hc
    by_cases h1 : configFields.all (fun k => (lookupKey doc k).isSome) = true
    · rw [if_pos h1] at hc
      by_cases h2 : (doc.map (fun p => p.1)).all
          (fun k => configFields.contains k) = true
      · exact ⟨fun k hk => (hkey k).mp (List.all_eq_true.mp h1 k hk),
          fun k hk => (hcont k).mp (List.all_eq_true.mp h2 k hk)⟩
      · rw [if_neg h2] at hc
        simp at hc
    · rw [if_neg h1] at hc
      simp at hc
  · rintro ⟨hall, hsub⟩
    have h1 : configFields.all (fun k => (lookupKey doc k).isSome) = true :=
      List.all_eq_true.mpr fun k hk => (hkey k).mpr (hall k hk)
    have h2 : (doc.map (fun p => p.1)).all
        (fun k => configFields.contains k) = true :=
      List.all_eq_true.mpr fun k hk => (hcont k).mpr (hsub k hk)
    unfold Config.from_config
    rw [if_pos h1, if_pos h2]
    exact ⟨_, rfl⟩

theorem c9_config_keys_exact_witness :
    Config.from_config goodDoc = Except.ok cfgGood ∧
    ("bucket" : String) ∈ goodDoc.map Prod.fst :=
  ⟨rfl, ((c9_config_keys_exact goodDoc).mp ⟨cfgGood, rfl⟩).1 ("bucket")
    (by decide)⟩

/-- C10: when the format carries `%z` and the raw string parses with an
offset, `path_to_datetime` returns the wall-clock fields re-labelled as UTC
(the parsed offset is discarded, shifting the denoted instant by the offset
rather than converting), so the two concrete strings below, which denote the
same instant at offsets +01:00 and +00:00, parse to different timestamps. -/
theorem c10_offset_discarded :
    (∀ (cfg : Config) (src : TimestampSource) (path : String)
        (r : ParseResult) (z : Int),
        strptime (String.mk (stripOneSuffix (pathNameChars path.toList)))
          (timestampFormatOf cfg src) = Except.ok r →
        r.gmtoff = some z →
        path_to_datetime cfg src path = some r.dt ∧
        epochSeconds r.dt = parsedInstant r + z) ∧
    (strptime ("2021-05-01 12:00:00+0100") c10Fmt = Except.ok c10R1 ∧
      strptime ("2021-05-01 11:00:00+0000") c10Fmt = Except.ok c10R2 ∧
      c10R1.gmtoff = some 3600 ∧ c10R2.gmtoff = some 0 ∧
      parsedInstant c10R1 = parsedInstant c10R2 ∧
      c10R1.dt ≠ c10R2.dt) := by
  constructor
  · intro cfg src path r z hok hz
    refine ⟨?_, ?_⟩
    · simp only [path_to_datetime]
      rw [hok]
    · simp [parsedInstant, hz]
  · exact ⟨rfl, rfl, rfl, rfl, by decide, by decide⟩

theorem c10_offset_discarded_witness :
    path_to_datetime cfgZ TimestampSource.remote
      ("2021-05-01 12:00:00+0100.zip") = some c10R1.dt ∧
    epochSeconds c10R1.dt = parsedInstant c10R1 + 3600 :=
  c10_offset_discarded.1 cfgZ TimestampSource.remote
    ("2021-05-01 12:00:00+0100.zip") c10R1 3600 rfl rfl

end BackuperToS3
